import Mathlib

/-!
Verification of the palette-construction core of the `smallpng` image
quantizer against its specification.

The Go source is shallowly embedded as follows.

* Go `float32`/`float64` values are modelled by the type `SP.Q` of raw
  fractions (an integer numerator and denominator, never normalized, so
  that every arithmetic operation is a plain integer computation and
  evaluates inside the Lean kernel).  All arithmetic appearing in the
  claims under scrutiny is exact in the reference binary as well (sums,
  differences and products of exactly-representable values, and means of
  singleton clusters), so the exact model coincides with the float
  computation wherever a theorem below inspects a concrete value; where
  float rounding could genuinely matter (the CIELAB transcendental
  branches, see `powQ`/`cbrtQ`) no theorem depends on a value.
* Go slices become `List`s, and slice mutation becomes functional update.
* `math/rand` draws become explicit stream parameters (`Rng`): the
  integer draw at shuffle step `i` is `shuffleDraws i` reduced modulo the
  requested bound, the k-means++ seeding draw is `seedDraw`, and each
  `rand.Float64()` result is an arbitrary `Q` from `kppDraws`.  Theorems
  quantify over the streams (or pick a concrete stream for a
  counterexample), which covers every behaviour of the uniform source.
* Go map iteration order (used only to list the distinct colors) is
  unspecified; it is modelled by `List.dedup`, and every statement about
  the distinct-color path is order-insensitive (sets / lengths).
* The indexed-image output: `image.Paletted.Set` stores
  `uint8(Palette.Index(c))`, and Go's `color.Palette.Index` compares
  16-bit RGBA channels with `sqDiff`; both are embedded below
  (`paletteIndex`, `sqDiff`) following the Go standard library source,
  since `PaletteImage` writes every pixel through them.
-/

namespace SP

/-- Raw fraction model of a Go floating-point value: an unreduced pair of
integers.  The denominator is positive for every value produced by the
embedded pipeline except the mean-squared-error of an empty input
(0 pixels), where Go produces NaN and this model produces `⟨0, 0⟩` — a
genuine divergence (NaN compares false where `⟨0, 0⟩.le ⟨0, 0⟩` holds);
see `colorClusters.Iterate` for its extent and which theorems exclude it. -/
structure Q where
  num : ℤ
  den : ℤ
deriving DecidableEq

/-- Embed a natural number as a raw fraction. -/
def Q.ofNat (n : ℕ) : Q := ⟨(n : ℤ), 1⟩

/-- Raw fraction for a decimal literal of the Go source, `qc n d` standing
for the exact rational n/d. -/
def qc (n d : ℤ) : Q := ⟨n, d⟩

/-- The value 0 (Go `0.0`, also the zero value of a float field). -/
def Q.zero : Q := ⟨0, 1⟩

/-- The value 1. -/
def Q.one : Q := ⟨1, 1⟩

/-- Exact addition of fractions (cross-multiplied, not normalized). -/
def Q.add (x y : Q) : Q := ⟨x.num * y.den + y.num * x.den, x.den * y.den⟩

/-- Exact subtraction of fractions. -/
def Q.sub (x y : Q) : Q := ⟨x.num * y.den - y.num * x.den, x.den * y.den⟩

/-- Exact multiplication of fractions. -/
def Q.mul (x y : Q) : Q := ⟨x.num * y.num, x.den * y.den⟩

/-- Exact division of fractions. -/
def Q.div (x y : Q) : Q := ⟨x.num * y.den, x.den * y.num⟩

/-- Value order on fractions, by cross multiplication.  Agrees with the
rational order whenever both denominators are positive, which holds for
every comparison the embedded code performs on meaningful values. -/
def Q.lt (x y : Q) : Prop := x.num * y.den < y.num * x.den

/-- Non-strict value order on fractions, by cross multiplication. -/
def Q.le (x y : Q) : Prop := x.num * y.den ≤ y.num * x.den

instance (x y : Q) : Decidable (Q.lt x y) := Int.decLt _ _

instance (x y : Q) : Decidable (Q.le x y) := Int.decLe _ _

/-- The rational value of a raw fraction (`0` when the denominator is 0,
following Mathlib's division convention). -/
def Q.val (x : Q) : ℚ := (x.num : ℚ) / (x.den : ℚ)

/-- Well-formedness of a raw fraction: positive denominator.  Every value
read from a pixel has this shape, and all operations preserve it apart
from division by zero. -/
def Q.wf (x : Q) : Prop := 0 < x.den

instance (x : Q) : Decidable (Q.wf x) := Int.decLt _ _

/-- Go `colorVector`, a 4-vector of `float32` color components. -/
structure colorVector where
  c0 : Q
  c1 : Q
  c2 : Q
  c3 : Q
deriving DecidableEq

/-- The Go zero value of `colorVector` (all components `0.0`). -/
def zeroVec : colorVector := ⟨Q.zero, Q.zero, Q.zero, Q.zero⟩

/-- Go `colorVector.DistSquared`: componentwise squared distance,
accumulated from 0 in component order exactly as the source loop does. -/
def colorVector.DistSquared (r r1 : colorVector) : Q :=
  ((((Q.zero.add ((r.c0.sub r1.c0).mul (r.c0.sub r1.c0))).add
      ((r.c1.sub r1.c1).mul (r.c1.sub r1.c1))).add
      ((r.c2.sub r1.c2).mul (r.c2.sub r1.c2))).add
      ((r.c3.sub r1.c3).mul (r.c3.sub r1.c3)))

/-- Go `colorVector.Add`: componentwise sum. -/
def colorVector.Add (r r1 : colorVector) : colorVector :=
  ⟨r.c0.add r1.c0, r.c1.add r1.c1, r.c2.add r1.c2, r.c3.add r1.c3⟩

/-- Go `colorVector.Scale`: componentwise scaling. -/
def colorVector.Scale (r : colorVector) (s : Q) : colorVector :=
  ⟨r.c0.mul s, r.c1.mul s, r.c2.mul s, r.c3.mul s⟩

/-- A pixel as seen by the core: the four 16-bit channels returned by Go's
`color.Color.RGBA()` (each in 0..65535 for an in-range color). -/
structure GoColor where
  r : ℕ
  g : ℕ
  b : ℕ
  a : ℕ
deriving DecidableEq

/-- Go `color.RGBA`, the 8-bit palette entry type produced by `toColor`. -/
structure RGBA where
  r : ℕ
  g : ℕ
  b : ℕ
  a : ℕ
deriving DecidableEq

/-- Go `color.RGBA.RGBA()`: widening of an 8-bit channel `v` to 16 bits as
`v | v<<8 = v * 0x101 = v * 257`. -/
def RGBA.rgba16 (c : RGBA) : GoColor := ⟨257 * c.r, 257 * c.g, 257 * c.b, 257 * c.a⟩

/-- Go `ColorSpace` enumeration; the Go zero value (`iota` start) is `RGB`. -/
inductive ColorSpace where
  | RGB : ColorSpace
  | CIELAB : ColorSpace
deriving DecidableEq

/-- Go `labAlphaScale = 128.0`. -/
def labAlphaScale : Q := qc 128 1

/-- Stand-in for `float32(math.Pow(x, e))` in the non-linear branches of the
sRGB gamma functions.  The transcendental float32 computation has no exact
rational counterpart; no theorem in this file depends on a value that
reaches this branch. -/
def powQ (_x _e : Q) : Q := Q.zero

/-- Stand-in for `float32(math.Cbrt(t))` in the non-linear branch of the
CIELAB `f` function; same caveat as `powQ`. -/
def cbrtQ (_t : Q) : Q := Q.zero

/-- Go `gammaExpand` (sRGB to linear RGB, one channel). -/
def gammaExpand (u : Q) : Q :=
  if u.le (qc 4045 100000) then u.div (qc 1292 100)
  else powQ ((u.add (qc 55 1000)).div (qc 1055 1000)) (qc 24 10)

/-- Go `gammaCompress` (linear RGB to sRGB, one channel). -/
def gammaCompress (u : Q) : Q :=
  if u.le (qc 31308 10000000) then (qc 1292 100).mul u
  else ((qc 1055 1000).mul (powQ u (Q.one.div (qc 24 10)))).sub (qc 55 1000)

/-- Three float components, for the XYZ / Lab / RGB triples. -/
structure V3 where
  x : Q
  y : Q
  z : Q
deriving DecidableEq

/-- Go `convertSRGBToLinearRGB`. -/
def convertSRGBToLinearRGB (srgb : V3) : V3 :=
  ⟨gammaExpand srgb.x, gammaExpand srgb.y, gammaExpand srgb.z⟩

/-- Go `convertLinearRGBToSRGB`. -/
def convertLinearRGBToSRGB (rgb : V3) : V3 :=
  ⟨gammaCompress rgb.x, gammaCompress rgb.y, gammaCompress rgb.z⟩

/-- Go `convertLinearRGBToXYZ` (fixed sRGB/D65 3×3 matrix). -/
def convertLinearRGBToXYZ (rgb : V3) : V3 :=
  ⟨(((qc 41239080 100000000).mul rgb.x).add ((qc 35758434 100000000).mul rgb.y)).add
      ((qc 18048079 100000000).mul rgb.z),
   (((qc 21263901 100000000).mul rgb.x).add ((qc 71516868 100000000).mul rgb.y)).add
      ((qc 7219232 100000000).mul rgb.z),
   (((qc 1933082 100000000).mul rgb.x).add ((qc 11919478 100000000).mul rgb.y)).add
      ((qc 95053215 100000000).mul rgb.z)⟩

/-- Go `convertXYZToLinearRGB` (inverse 3×3 matrix). -/
def convertXYZToLinearRGB (xyz : V3) : V3 :=
  ⟨(((qc 324096994 100000000).mul xyz.x).sub ((qc 153738318 100000000).mul xyz.y)).sub
      ((qc 49861076 100000000).mul xyz.z),
   (((qc (-96924364) 100000000).mul xyz.x).add ((qc 18759675 10000000).mul xyz.y)).add
      ((qc 4155506 100000000).mul xyz.z),
   (((qc 5563008 100000000).mul xyz.x).sub ((qc 20397696 100000000).mul xyz.y)).add
      ((qc 105697151 100000000).mul xyz.z)⟩

/-- Go `delta = 6.0/29.0` from the CIELAB `f` functions. -/
def labDelta : Q := (qc 6 1).div (qc 29 1)

/-- The CIE `f` piecewise function of Go `convertXYZToLab`. -/
def labF (t : Q) : Q :=
  if ((labDelta.mul labDelta).mul labDelta).lt t then cbrtQ t
  else (t.div ((qc 3 1).mul (labDelta.mul labDelta))).add ((qc 4 1).div (qc 29 1))

/-- Go `convertXYZToLab` with the D65 white point. -/
def convertXYZToLab (xyz : V3) : V3 :=
  let x := xyz.x.mul (qc 100 1)
  let y := xyz.y.mul (qc 100 1)
  let z := xyz.z.mul (qc 100 1)
  let fx := labF (x.div (qc 950489 10000))
  let fy := labF (y.div (qc 100 1))
  let fz := labF (z.div (qc 1088840 10000))
  ⟨((qc 116 1).mul fy).sub (qc 16 1),
   (qc 500 1).mul (fx.sub fy),
   (qc 200 1).mul (fy.sub fz)⟩

/-- The inverse piecewise function of Go `convertLabToXYZ`. -/
def labFInv (t : Q) : Q :=
  if labDelta.lt t then (t.mul t).mul t
  else (((qc 3 1).mul (labDelta.mul labDelta)).mul (t.sub ((qc 4 1).div (qc 29 1))))

/-- Go `convertLabToXYZ` with the D65 white point. -/
def convertLabToXYZ (lab : V3) : V3 :=
  let l := lab.x
  let a := lab.y
  let b := lab.z
  ⟨((qc 950489 10000).mul (labFInv (((l.add (qc 16 1)).div (qc 116 1)).add (a.div (qc 500 1))))).div (qc 100 1),
   ((qc 100 1).mul (labFInv ((l.add (qc 16 1)).div (qc 116 1)))).div (qc 100 1),
   ((qc 1088840 10000).mul (labFInv (((l.add (qc 16 1)).div (qc 116 1)).sub (b.div (qc 200 1))))).div (qc 100 1)⟩

/-- Conversion of a clamped-to-[0,1]-scale float channel to a `uint8` via
`uint8(x * 255.999)`: truncation of the scaled value.  The embedded
`Int.ediv` floor agrees with Go's truncation for the non-negative
in-range values at which the pipeline evaluates it. -/
def quant8 (x : Q) : ℕ :=
  let y := x.mul (qc 255999 1000)
  (Int.ediv y.num y.den).toNat

/-- The `color.RGBA{...}` construction shared by both branches of Go
`ColorSpace.toColor` (the CIELAB branch delegates to the RGB branch). -/
def rgbaOf (v : colorVector) : RGBA :=
  ⟨quant8 v.c0, quant8 v.c1, quant8 v.c2, quant8 v.c3⟩

/-- Go `ColorSpace.toColor`. -/
def ColorSpace.toColor (c : ColorSpace) (v : colorVector) : RGBA :=
  match c with
  | ColorSpace.RGB => rgbaOf v
  | ColorSpace.CIELAB =>
      let xyz := convertLabToXYZ ⟨v.c0, v.c1, v.c2⟩
      let lrgb := convertXYZToLinearRGB xyz
      let rgb := convertLinearRGBToSRGB lrgb
      rgbaOf ⟨rgb.x, rgb.y, rgb.z, v.c3.div labAlphaScale⟩

/-- Go `ColorSpace.toVector`. -/
def ColorSpace.toVector (c : ColorSpace) (co : GoColor) : colorVector :=
  let r := (Q.ofNat co.r).div (Q.ofNat 65535)
  let g := (Q.ofNat co.g).div (Q.ofNat 65535)
  let b := (Q.ofNat co.b).div (Q.ofNat 65535)
  let a := (Q.ofNat co.a).div (Q.ofNat 65535)
  match c with
  | ColorSpace.RGB => ⟨r, g, b, a⟩
  | ColorSpace.CIELAB =>
      let lrgb := convertSRGBToLinearRGB ⟨r, g, b⟩
      let xyz := convertLinearRGBToXYZ lrgb
      let lab := convertXYZToLab xyz
      ⟨lab.x, lab.y, lab.z, a.mul labAlphaScale⟩

/-- Go `DefaultMaxKMeansIters`. -/
def DefaultMaxKMeansIters : ℤ := 5

/-- Go `DefaultPaletteSize`. -/
def DefaultPaletteSize : ℤ := 256

/-- Go `DefaultMaxClusterPixels`. -/
def DefaultMaxClusterPixels : ℤ := 100000

/-- Go `PaletteConfig` (`int` fields as integers, `ColorSpace` as above). -/
structure PaletteConfig where
  MaxKMeansIters : ℤ
  PaletteSize : ℤ
  MaxClusterPixels : ℤ
  ColorSpace : ColorSpace
deriving DecidableEq

/-- The Go zero value of `PaletteConfig` (all `int` fields 0, and the zero
value of the `ColorSpace` enumeration, which is `RGB`). -/
def zeroConfig : PaletteConfig := ⟨0, 0, 0, ColorSpace.RGB⟩

/-- Go `PaletteConfig.setDefaults`. -/
def PaletteConfig.setDefaults (p : PaletteConfig) : PaletteConfig :=
  let p1 : PaletteConfig :=
    if p.MaxKMeansIters = 0 then
      ⟨DefaultMaxKMeansIters, p.PaletteSize, p.MaxClusterPixels, p.ColorSpace⟩
    else p
  let p2 : PaletteConfig :=
    if p1.PaletteSize = 0 then
      ⟨p1.MaxKMeansIters, DefaultPaletteSize, p1.MaxClusterPixels, p1.ColorSpace⟩
    else p1
  if p2.MaxClusterPixels = 0 then
    ⟨p2.MaxKMeansIters, p2.PaletteSize, DefaultMaxClusterPixels, p2.ColorSpace⟩
  else p2

end SP

namespace SP

/-- Functional form of the Go parallel swap `colors[i], colors[j] = colors[j], colors[i]`. -/
def swapAt (l : List colorVector) (i j : ℕ) : List colorVector :=
  let vi := l.getD i zeroVec
  let vj := l.getD j zeroVec
  (l.set i vj).set j vi

/-- Go `subsampleClusterPixels`: identity when the population fits in
`maxPixels`, otherwise the `maxPixels`-prefix of the partial shuffle the
source performs (note the source draws `j := rand.Intn(len(colors) - i)`,
with no `+ i` offset).  `draws i` is the random draw of step `i`, reduced
modulo the Go bound so that every stream is a legal run.  For a negative
`maxPixels` the `len(colors) <= maxPixels` test fails even on an empty
population and Go panics at the final reslice `colors[:maxPixels]`
(negative slice bound); this total model instead returns the
`maxPixels.toNat = 0` prefix, so every theorem about a pipeline run
assumes a non-negative configured `MaxClusterPixels`. -/
def subsampleClusterPixels (colors : List colorVector) (maxPixels : ℤ)
    (draws : ℕ → ℕ) : List colorVector :=
  if (colors.length : ℤ) ≤ maxPixels then colors
  else
    ((List.range maxPixels.toNat).foldl
      (fun acc i => swapAt acc i (draws i % (colors.length - i))) colors).take
      maxPixels.toNat

/-- Go `colorClusters`: the mutable centers plus the clustered population. -/
structure colorClusters where
  Centers : List colorVector
  AllColors : List colorVector

/-- The inner nearest-center scan of Go `colorClusters.Iterate`:
`closestDist, closestIdx` start at `0.0, 0`, and center `i` takes over when
`d < closestDist || i == 0`.  Returns (index, distance). -/
def nearAux (co : colorVector) : List colorVector → ℕ → ℕ × Q → ℕ × Q
  | [], _, best => best
  | c :: rest, i, best =>
      let d := co.DistSquared c
      nearAux co rest (i + 1) (if d.lt best.2 ∨ i = 0 then (i, d) else best)

/-- Nearest-center index and distance for one color, as Go computes them. -/
def nearScan (centers : List colorVector) (co : colorVector) : ℕ × Q :=
  nearAux co centers 0 (0, Q.zero)

/-- Go `colorClusters.Iterate`: one Lloyd step.  Every color is assigned to
its nearest center; a center with assignments becomes
`sum.Scale(1/count)`, a center with none keeps its value; the returned
loss is the total squared error over the population size.  The parallel
partial sums of the source merge into exactly these per-center sums
(exact arithmetic is associative and commutative, so the worker partition
is irrelevant), and the final division is Go float division — for an
empty population Go yields NaN where this model yields `⟨0, 0⟩`.  That is
a real divergence in the driver's comparison: Go's `newLoss >= loss` is
false on NaN, so the real driver always runs to its iteration cap on an
empty population, while `⟨0, 0⟩.le ⟨0, 0⟩` holds and the modelled loop
stops after one further call.  The final centers agree (the empty center
list is unchanged by `Iterate`, so palette-shaped facts are unaffected),
but the number of calls and the loss trace differ, and every theorem
about the loss trace therefore assumes a non-empty population of
well-formed vectors, where the loss is a well-formed fraction and the
comparison is the float one. -/
def colorClusters.Iterate (c : colorClusters) : colorClusters × Q :=
  let assigns := c.AllColors.map (fun co => nearScan c.Centers co)
  let pairs := c.AllColors.zip assigns
  let newCenters := (List.range c.Centers.length).map (fun i =>
    let assigned := (pairs.filter (fun pr => pr.2.1 == i)).map Prod.fst
    if 0 < assigned.length then
      (assigned.foldl colorVector.Add zeroVec).Scale
        (Q.one.div (Q.ofNat assigned.length))
    else c.Centers.getD i zeroVec)
  let totalError := assigns.foldl (fun s pr => s.add pr.2) Q.zero
  (⟨newCenters, c.AllColors⟩, totalError.div (Q.ofNat c.AllColors.length))

/-- Go `centerDistances`: per-point squared distance to the nearest chosen
center, plus the running sum. -/
structure centerDistances where
  Distances : List Q
  DistanceSum : Q

/-- Go `newCenterDistances`. -/
def newCenterDistances (allColors : List colorVector) (center : colorVector) :
    centerDistances :=
  let ds := allColors.map (fun c => c.DistSquared center)
  ⟨ds, ds.foldl Q.add Q.zero⟩

/-- Go `centerDistances.Update`: pointwise minimum with the distances to the
new center, and the recomputed sum. -/
def centerDistances.Update (allColors : List colorVector)
    (cd : centerDistances) (newCenter : colorVector) : centerDistances :=
  let ds := (allColors.zip cd.Distances).map (fun pr =>
    let d := pr.1.DistSquared newCenter
    if d.lt pr.2 then d else pr.2)
  ⟨ds, ds.foldl Q.add Q.zero⟩

/-- The scan of Go `centerDistances.Sample`: subtract distances from the
drawn value until it goes negative; fall back to the last index. -/
def sampleScan : List Q → Q → ℕ → ℕ → ℕ
  | [], _, _, fallback => fallback
  | d :: rest, s, i, fallback =>
      if (s.sub d).lt Q.zero then i else sampleScan rest (s.sub d) (i + 1) fallback

/-- Go `centerDistances.Sample` with the `rand.Float64()` draw `u` made
explicit: the scanned value is `u * DistanceSum`. -/
def centerDistances.Sample (cd : centerDistances) (allLen : ℕ) (u : Q) : ℕ :=
  sampleScan cd.Distances (u.mul cd.DistanceSum) 0 (allLen - 1)

/-- The loop of Go `kmeansPlusPlusInit` for centers 1..k-1, carried by the
remaining fuel; accumulates chosen centers in reverse. -/
def kppAux (allColors : List colorVector) (floats : ℕ → Q) :
    ℕ → ℕ → centerDistances → List colorVector → List colorVector
  | _, 0, _, acc => acc.reverse
  | i, fuel + 1, cd, acc =>
      let idx := cd.Sample allColors.length (floats i)
      let c := allColors.getD idx zeroVec
      kppAux allColors floats (i + 1) fuel (cd.Update allColors c) (c :: acc)

/-- Go `kmeansPlusPlusInit`: first center drawn uniformly (`seed` reduced
modulo the population size), then `numCenters - 1` weighted draws. -/
def kmeansPlusPlusInit (allColors : List colorVector) (numCenters : ℕ)
    (seed : ℕ) (floats : ℕ → Q) : List colorVector :=
  let c0 := allColors.getD (seed % allColors.length) zeroVec
  kppAux allColors floats 1 (numCenters - 1) (newCenterDistances allColors c0) [c0]

/-- Go `newColorClusters`: all distinct colors when they fit in
`numCenters` (Go map iteration modelled by `List.dedup`), k-means++
seeding otherwise. -/
def newColorClusters (allColors : List colorVector) (numCenters : ℤ)
    (seed : ℕ) (floats : ℕ → Q) : colorClusters :=
  let unique := allColors.dedup
  if (unique.length : ℤ) ≤ numCenters then ⟨unique, allColors⟩
  else ⟨kmeansPlusPlusInit allColors numCenters.toNat seed floats, allColors⟩

/-- The `for i := 0; i < maxIters; i++` refinement loop of Go
`PaletteImage`, after the initial `loss := clusters.Iterate()` call: each
round calls `Iterate` (which updates the centers) and then breaks when
the new loss fails to strictly decrease.  Returns the final cluster state
together with the list of losses returned by the `Iterate` calls it made. -/
def refineAux : ℕ → colorClusters → Q → colorClusters × List Q
  | 0, cs, _ => (cs, [])
  | fuel + 1, cs, prevLoss =>
      let step := cs.Iterate
      if prevLoss.le step.2 then (step.1, [step.2])
      else
        let rest := refineAux fuel step.1 step.2
        (rest.1, step.2 :: rest.2)

/-- The whole refinement driver of Go `PaletteImage`: the initial
`Iterate` call establishing the baseline loss, then `refineAux`.  The
second component lists every loss returned by every `Iterate` call, so
its length is the number of `Iterate` calls performed. -/
def refine (cs : colorClusters) (maxIters : ℕ) : colorClusters × List Q :=
  let first := cs.Iterate
  let rest := refineAux maxIters first.1 first.2
  (rest.1, first.2 :: rest.2)

/-- Go `sqDiff` from the standard library `image/color` package:
`d := x - y; return (d * d) >> 2` in `uint32` arithmetic.  For channel
values the wrap-around square equals `|x - y|^2 mod 2^32`, written here
over ℕ with `(x - y) + (y - x) = |x - y|`. -/
def sqDiff (x y : ℕ) : ℕ := ((x - y) + (y - x)) ^ 2 % 4294967296 / 4

/-- Squared 16-bit RGBA distance of Go `color.Palette.Index` between a
pixel and one palette entry. -/
def goColorDist (p : GoColor) (c : GoColor) : ℕ :=
  sqDiff p.r c.r + sqDiff p.g c.g + sqDiff p.b c.b + sqDiff p.a c.a

/-- The scan of Go `color.Palette.Index`: `bestSum` starts at
`1<<32 - 1` and an entry takes over on a strictly smaller sum. -/
def indexAux (p : GoColor) : List RGBA → ℕ → ℕ × ℕ → ℕ × ℕ
  | [], _, best => best
  | c :: rest, i, best =>
      let d := goColorDist p c.rgba16
      indexAux p rest (i + 1) (if d < best.2 then (i, d) else best)

/-- Go `color.Palette.Index` (the function `image.Paletted.Set` applies to
every written pixel). -/
def paletteIndex (palette : List RGBA) (p : GoColor) : ℕ :=
  (indexAux p palette 0 (0, 4294967295)).1

/-- The palette slice built by Go `PaletteImage`: `make(color.Palette, size)`
(entries start as `nil`, here `none`), entry `i` set from center `i`, and
the `Prevent nil colors` loop copying `palette[0]` into every slot at and
beyond the center count.  When the center list is empty that loop copies
`nil` over `nil`, so every entry stays `none`. -/
def buildPalette (cs : ColorSpace) (centers : List colorVector) (size : ℕ) :
    List (Option RGBA) :=
  let first := centers.head?.map cs.toColor
  (List.range size).map (fun i =>
    match centers.get? i with
    | some v => some (cs.toColor v)
    | none => first)

/-- The random streams consumed by one `PaletteImage` run (see the header
comment). -/
structure Rng where
  shuffleDraws : ℕ → ℕ
  seedDraw : ℕ
  kppDraws : ℕ → Q

/-- The configuration `PaletteImage` actually runs with: the caller's
configuration (or the zero value for a `nil` pointer) after
`setDefaults` — the source executes `*p = p.setDefaults()`. -/
def effectiveConfig (pc : Option PaletteConfig) : PaletteConfig :=
  (pc.getD zeroConfig).setDefaults

/-- The cluster population of a run: every pixel converted by the active
color space, then subsampled. -/
def clusterPixels (img : List GoColor) (p : PaletteConfig) (rng : Rng) :
    List colorVector :=
  subsampleClusterPixels (img.map p.ColorSpace.toVector) p.MaxClusterPixels
    rng.shuffleDraws

/-- The final centers of a run: seeding followed by the refinement loop. -/
def pipelineCenters (img : List GoColor) (pc : Option PaletteConfig) (rng : Rng) :
    List colorVector :=
  let p := effectiveConfig pc
  let colors := clusterPixels img p rng
  (refine (newColorClusters colors p.PaletteSize rng.seedDraw rng.kppDraws)
      p.MaxKMeansIters.toNat).1.Centers

/-- The output of Go `image.NewPaletted` + the per-pixel `Set` loop: the
palette and the flattened index grid (row-major pixel order, matching the
order in which the source visits the bounds). -/
structure Paletted where
  palette : List (Option RGBA)
  pix : List ℕ

/-- Go `PaletteImage`.  Returns the `image.Paletted` result together with
the configuration value written back through the caller's pointer.
`image.Paletted.Set` stores `uint8(Palette.Index(c))` — hence the
`% 256`.  `Palette.Index` calls `RGBA()` on each palette entry; on a
`nil` entry Go would panic, which only an empty input image can produce,
and then the pixel loop body never runs — the model's `Option.getD`
default is therefore never observable. -/
def PaletteImage (img : List GoColor) (pc : Option PaletteConfig) (rng : Rng) :
    Paletted × PaletteConfig :=
  let p := effectiveConfig pc
  let centers := pipelineCenters img pc rng
  let palette := buildPalette p.ColorSpace centers p.PaletteSize.toNat
  let palColors := palette.map (fun o => o.getD ⟨0, 0, 0, 0⟩)
  (⟨palette, img.map (fun px => paletteIndex palColors px % 256)⟩, p)

end SP

namespace SP

/-- Modelled from the spec: the squared distance between a pixel and a
palette entry "in the active color space's vector space" — both are
converted by the active `toVector` and compared with the source's
`DistSquared`.  This is the claim-side metric of the Index Grid
specification, to be compared with what `PaletteImage` writes. -/
def specVecDist (cs : ColorSpace) (entry : RGBA) (p : GoColor) : Q :=
  (cs.toVector entry.rgba16).DistSquared (cs.toVector p)

/-- Modelled from the spec: index `i` names a palette entry nearest to
pixel `p` in the active color space's vector space. -/
def isVecNearest (cs : ColorSpace) (palette : List RGBA) (p : GoColor) (i : ℕ) :
    Prop :=
  i < palette.length ∧
    ∀ j, j < palette.length →
      (specVecDist cs (palette.getD i ⟨0, 0, 0, 0⟩) p).le
        (specVecDist cs (palette.getD j ⟨0, 0, 0, 0⟩) p)

instance (cs : ColorSpace) (palette : List RGBA) (p : GoColor) (i : ℕ) :
    Decidable (isVecNearest cs palette p i) := by
  unfold isVecNearest
  exact instDecidableAnd

/-- A fixed, everywhere-zero random source, used by concrete runs whose
random draws are immaterial or deliberately chosen to be 0. -/
def rng0 : Rng := ⟨fun _ => 0, 0, fun _ => Q.zero⟩

/-- Well-formed vector: every component has a positive denominator (true of
every vector obtained from a pixel, and preserved by `Add` and `Scale`
with well-formed factors). -/
def colorVector.wfv (v : colorVector) : Prop :=
  v.c0.wf ∧ v.c1.wf ∧ v.c2.wf ∧ v.c3.wf

instance (v : colorVector) : Decidable v.wfv := by
  unfold colorVector.wfv
  exact instDecidableAnd

/-- The vectors `Iterate` assigns to center `i`: those whose nearest-center
scan lands on `i`. -/
def assignedTo (centers colors : List colorVector) (i : ℕ) : List colorVector :=
  colors.filter (fun co => (nearScan centers co).1 == i)

/-- The four component values of a vector, as exact rationals. -/
def colorVector.vals (v : colorVector) : List ℚ :=
  [v.c0.val, v.c1.val, v.c2.val, v.c3.val]

/-- Modelled from the spec: the componentwise mean of a list of vectors,
as exact rationals. -/
def meanVals (l : List colorVector) : List ℚ :=
  [((l.map (fun v => v.c0.val)).sum) / l.length,
   ((l.map (fun v => v.c1.val)).sum) / l.length,
   ((l.map (fun v => v.c2.val)).sum) / l.length,
   ((l.map (fun v => v.c3.val)).sum) / l.length]

/-- A simple distinct vector family for concrete runs. -/
def mkv (k : ℕ) : colorVector := ⟨Q.ofNat k, Q.ofNat 0, Q.ofNat 0, Q.ofNat 0⟩

/-- The draw stream taking value `j0` at step 0 and `j1` afterwards. -/
def twoDraws (j0 j1 : ℕ) : ℕ → ℕ := fun n => if n = 0 then j0 else j1

/-- One `subsampleClusterPixels` run on the three-element population with
`maxPixels = 2` under the given draws. -/
def subsampleRun (j0 j1 : ℕ) : List colorVector :=
  subsampleClusterPixels [mkv 0, mkv 1, mkv 2] 2 (twoDraws j0 j1)

/-- How many of the 6 equiprobable draw pairs (`j0 < 3`, `j1 < 2`, exactly
the values `rand.Intn` can produce) select vector `v` into the returned
sample. -/
def selCount (v : colorVector) : ℕ :=
  (((List.range 3).map (fun j0 => (List.range 2).map (fun j1 => subsampleRun j0 j1))).flatten).countP
    (fun l => decide (v ∈ l))

/-- The all-dark 5-pixel image of the C2 counterexample: black with 8-bit
alpha 210, three copies of 8-bit (10,10,10,200), and the probe pixel black
with 8-bit alpha 200.  Every color-space computation on these pixels stays
in the linear (exactly rational) branches of the CIELAB chain. -/
def imgLab : List GoColor :=
  [⟨0, 0, 0, 53970⟩,
   ⟨2570, 2570, 2570, 51400⟩,
   ⟨2570, 2570, 2570, 51400⟩,
   ⟨2570, 2570, 2570, 51400⟩,
   ⟨0, 0, 0, 51400⟩]

/-- CIELAB clustering into a 2-color palette for the C2 counterexample. -/
def cfgLab : PaletteConfig := ⟨0, 2, 0, ColorSpace.CIELAB⟩

/-- Integer-scaled claim-side distance in RGB mode: the sum over the four
channels of the squared difference between the pixel's 16-bit value and
the palette entry's widened 16-bit value.  `specVecDist RGB` equals this
over `65535^2` (lemma `specVecDist_rgb`). -/
def specNat (p : GoColor) (c : RGBA) : ℕ :=
  ((p.r - 257 * c.r) + (257 * c.r - p.r)) ^ 2 +
  ((p.g - 257 * c.g) + (257 * c.g - p.g)) ^ 2 +
  ((p.b - 257 * c.b) + (257 * c.b - p.b)) ^ 2 +
  ((p.a - 257 * c.a) + (257 * c.a - p.a)) ^ 2

/-- Concrete palette for the C2 amended-claim witness. -/
def palW : List RGBA := [⟨0, 0, 0, 255⟩, ⟨255, 0, 0, 255⟩]

/-- Concrete pixel for the C2 amended-claim witness. -/
def pixW : GoColor := ⟨65535, 0, 0, 65535⟩

/-- Concrete image for the C1 witness: one opaque black pixel. -/
def imgW : List GoColor := [⟨0, 0, 0, 65535⟩]

/-- Concrete configuration for the C1 witness: palette size 1. -/
def cfgW : PaletteConfig := ⟨0, 1, 0, ColorSpace.RGB⟩

/-- Concrete configuration for the C6 witness: palette size 7. -/
def cfgW7 : PaletteConfig := ⟨0, 7, 0, ColorSpace.RGB⟩

end SP

/-- Helper: field-by-field description of `setDefaults`. -/
theorem SP.setDefaults_fields (cfg : SP.PaletteConfig) :
    cfg.setDefaults =
      ⟨if cfg.MaxKMeansIters = 0 then 5 else cfg.MaxKMeansIters,
       if cfg.PaletteSize = 0 then 256 else cfg.PaletteSize,
       if cfg.MaxClusterPixels = 0 then 100000 else cfg.MaxClusterPixels,
       cfg.ColorSpace⟩ := by
  obtain ⟨i, s, m, c⟩ := cfg
  simp only [SP.PaletteConfig.setDefaults, SP.DefaultMaxKMeansIters,
    SP.DefaultPaletteSize, SP.DefaultMaxClusterPixels]
  split <;> split <;> split <;> simp_all

/-- C3: when left unspecified (the zero value), the configuration defaults
are `paletteSize = 256`, `maxClusterIterations = 5`,
`maxSamplePixels = 100000`, and the color space keeps the caller's field —
whose zero value is `RGB`, not CIELAB as the claim states.  This theorem
is the amended claim. -/
theorem c3_defaults_amended (cfg : SP.PaletteConfig) :
    (cfg.MaxKMeansIters = 0 → cfg.setDefaults.MaxKMeansIters = 5) ∧
    (cfg.PaletteSize = 0 → cfg.setDefaults.PaletteSize = 256) ∧
    (cfg.MaxClusterPixels = 0 → cfg.setDefaults.MaxClusterPixels = 100000) ∧
    cfg.setDefaults.ColorSpace = cfg.ColorSpace ∧
    SP.zeroConfig.ColorSpace = SP.ColorSpace.RGB := by
  rw [SP.setDefaults_fields]
  refine ⟨fun h => by simp [h], fun h => by simp [h], fun h => by simp [h], rfl, rfl⟩

/-- C3 witness: the defaulted zero configuration, with every numeric
default filled in and the color space left at `RGB`. -/
theorem c3_defaults_amended_witness :
    SP.zeroConfig.setDefaults.MaxKMeansIters = 5 ∧
    SP.zeroConfig.setDefaults.PaletteSize = 256 ∧
    SP.zeroConfig.setDefaults.MaxClusterPixels = 100000 ∧
    SP.zeroConfig.setDefaults.ColorSpace = SP.ColorSpace.RGB := by
  obtain ⟨h1, h2, h3, h4, -⟩ := c3_defaults_amended SP.zeroConfig
  exact ⟨h1 rfl, h2 rfl, h3 rfl, h4⟩

/-- C3 counterexample: an unspecified (zero) configuration does not default
the color space to CIELAB — the zero value of the enumeration is `RGB` and
`setDefaults` never touches that field. -/
theorem c3_defaults_cex :
    ¬ SP.zeroConfig.setDefaults.ColorSpace = SP.ColorSpace.CIELAB := by
  decide

/-- C10: `PaletteImage` writes the defaulted configuration back through the
caller's (non-nil) pointer: after the call the caller-visible configuration
is `setDefaults` of what was passed, so every zero-valued numeric field
has been overwritten with its default. -/
theorem c10_config_writeback (img : List SP.GoColor) (cfg : SP.PaletteConfig)
    (rng : SP.Rng) :
    (SP.PaletteImage img (some cfg) rng).2 = cfg.setDefaults ∧
    (cfg.MaxKMeansIters = 0 → (SP.PaletteImage img (some cfg) rng).2.MaxKMeansIters = 5) ∧
    (cfg.PaletteSize = 0 → (SP.PaletteImage img (some cfg) rng).2.PaletteSize = 256) ∧
    (cfg.MaxClusterPixels = 0 →
      (SP.PaletteImage img (some cfg) rng).2.MaxClusterPixels = 100000) := by
  have hc : (SP.PaletteImage img (some cfg) rng).2 = cfg.setDefaults := rfl
  rw [hc, SP.setDefaults_fields]
  refine ⟨rfl, fun h => by simp [h], fun h => by simp [h], fun h => by simp [h]⟩

/-- Helper: a swap on the empty list is the empty list. -/
theorem SP.swapAt_nil (i j : ℕ) : SP.swapAt [] i j = [] := rfl

/-- Helper: subsampling an empty population returns the empty population. -/
theorem SP.subsample_nil (m : ℤ) (d : ℕ → ℕ) :
    SP.subsampleClusterPixels [] m d = [] := by
  unfold SP.subsampleClusterPixels
  split
  · rfl
  · have h : ∀ l : List ℕ,
        (l.foldl (fun acc i => SP.swapAt acc i (d i % (List.length ([] : List SP.colorVector) - i))) []) = [] := by
      intro l
      induction l with
      | nil => rfl
      | cons x xs ih => simpa [SP.swapAt_nil] using ih
    rw [h]
    exact List.take_nil

/-- Helper: the cluster state built from an empty population with a
non-negative center count has no centers. -/
theorem SP.newColorClusters_nil (k : ℤ) (hk : 0 ≤ k) (seed : ℕ) (fl : ℕ → SP.Q) :
    SP.newColorClusters [] k seed fl = ⟨[], []⟩ := by
  simp only [SP.newColorClusters, List.dedup_nil, List.length_nil, Nat.cast_zero]
  rw [if_pos hk]

/-- Helper: `Iterate` on a state with no centers and no colors returns the
same empty state (and the 0/0 loss). -/
theorem SP.Iterate_nil :
    SP.colorClusters.Iterate ⟨[], []⟩ = (⟨[], []⟩, ⟨0, 0⟩) := rfl

/-- Helper: refinement from the empty state keeps the empty center list. -/
theorem SP.refine_nil (n : ℕ) : (SP.refine ⟨[], []⟩ n).1.Centers = [] := by
  cases n <;> rfl

/-- Helper: the entries of a palette built from an empty center list are
all `none`, whatever the size. -/
theorem SP.buildPalette_nil (cs : SP.ColorSpace) (size : ℕ) :
    ∀ e ∈ SP.buildPalette cs [] size, e = none := by
  intro e he
  unfold SP.buildPalette at he
  obtain ⟨i, -, hfe⟩ := List.mem_map.mp he
  simpa using hfe.symm

/-- Helper: the built palette always has exactly the requested length. -/
theorem SP.buildPalette_length (cs : SP.ColorSpace) (centers : List SP.colorVector)
    (size : ℕ) : (SP.buildPalette cs centers size).length = size := by
  unfold SP.buildPalette
  simp

/-- Helper: a `PaletteImage` run on the empty image with a non-negative
configured palette size produces no centers. -/
theorem SP.pipelineCenters_nil (cfg : SP.PaletteConfig) (rng : SP.Rng)
    (hk : 0 ≤ cfg.PaletteSize) :
    SP.pipelineCenters [] (some cfg) rng = [] := by
  have hconf : (SP.effectiveConfig (some cfg)) = cfg.setDefaults := rfl
  have hk' : 0 ≤ (SP.effectiveConfig (some cfg)).PaletteSize := by
    rw [hconf, SP.setDefaults_fields]
    dsimp only
    split
    · norm_num
    · exact hk
  have hstep : SP.pipelineCenters [] (some cfg) rng =
      (SP.refine
        (SP.newColorClusters (SP.clusterPixels [] (SP.effectiveConfig (some cfg)) rng)
          (SP.effectiveConfig (some cfg)).PaletteSize rng.seedDraw rng.kppDraws)
        (SP.effectiveConfig (some cfg)).MaxKMeansIters.toNat).1.Centers := rfl
  rw [hstep,
    show SP.clusterPixels [] (SP.effectiveConfig (some cfg)) rng = [] from
      SP.subsample_nil _ _,
    SP.newColorClusters_nil _ hk' _ _]
  exact SP.refine_nil _

/-- C6, amended: `PaletteImage` performs no validation and an empty image
does not fail: a zero `paletteSize` is silently replaced by the default
256 before clustering, and on a zero-pixel image the run completes and
returns a palette of the configured length whose every entry is
undefined (`nil`), together with an empty index grid.  The hypotheses
restrict the statement to the region where the total model matches Go:
a negative configured `PaletteSize` makes Go panic in `make`, and a
negative configured `MaxClusterPixels` makes Go panic at the
subsampler's reslice even on the empty image (see
`subsampleClusterPixels`), so neither is a completed run. -/
theorem c6_no_validation_amended (cfg : SP.PaletteConfig) (rng : SP.Rng)
    (hk : 0 ≤ cfg.PaletteSize) (_hmp : 0 ≤ cfg.MaxClusterPixels) :
    (SP.PaletteImage [] (some cfg) rng).1.palette.length =
      cfg.setDefaults.PaletteSize.toNat ∧
    (∀ e ∈ (SP.PaletteImage [] (some cfg) rng).1.palette, e = none) ∧
    (cfg.PaletteSize = 0 → cfg.setDefaults.PaletteSize = 256) ∧
    (SP.PaletteImage [] (some cfg) rng).1.pix = [] := by
  have hcent := SP.pipelineCenters_nil cfg rng hk
  have hpal : (SP.PaletteImage [] (some cfg) rng).1.palette =
      SP.buildPalette (SP.effectiveConfig (some cfg)).ColorSpace
        (SP.pipelineCenters [] (some cfg) rng)
        (SP.effectiveConfig (some cfg)).PaletteSize.toNat := rfl
  have hconf : SP.effectiveConfig (some cfg) = cfg.setDefaults := rfl
  refine ⟨?_, ?_, ?_, rfl⟩
  · rw [hpal, SP.buildPalette_length, hconf]
  · intro e he
    rw [hpal, hcent] at he
    exact SP.buildPalette_nil _ _ e he
  · intro h
    rw [SP.setDefaults_fields]
    simp [h]

/-- C6 witness: the empty image with configured palette size 7 yields a
7-entry palette of `nil` colors and no failure. -/
theorem c6_no_validation_amended_witness :
    (SP.PaletteImage [] (some SP.cfgW7) SP.rng0).1.palette.length =
      SP.cfgW7.setDefaults.PaletteSize.toNat ∧
    (∀ e ∈ (SP.PaletteImage [] (some SP.cfgW7) SP.rng0).1.palette, e = none) ∧
    (SP.cfgW7.PaletteSize = 0 → SP.cfgW7.setDefaults.PaletteSize = 256) ∧
    (SP.PaletteImage [] (some SP.cfgW7) SP.rng0).1.pix = [] :=
  c6_no_validation_amended SP.cfgW7 SP.rng0 (by decide) (by decide)

set_option maxRecDepth 100000 in
/-- C6 counterexample: with the zero configuration (`paletteSize = 0`,
which the claim says must fail fast) and an empty image (which the claim
says must fail explicitly), `PaletteImage` instead runs to completion,
silently substitutes the default palette size 256, and returns a garbage
palette: 256 entries, all of them `nil`. -/
theorem c6_no_validation_cex :
    SP.zeroConfig.setDefaults.PaletteSize = 256 ∧
    (SP.PaletteImage [] (some SP.zeroConfig) SP.rng0).1.palette.length = 256 ∧
    ∀ e ∈ (SP.PaletteImage [] (some SP.zeroConfig) SP.rng0).1.palette, e = none := by
  refine ⟨by decide, by decide, by decide⟩

/-- C5: the partial shuffle is biased, contradicting the unbiasedness the
claim (and the spec's sampler contract) requires.  The source draws
`j := rand.Intn(len(colors) - i)` — from `[0, len-i)` instead of the
Fisher-Yates range `[i, len)` — so over the 6 equiprobable draw pairs for
a 3-element population subsampled to 2, the element at index 1 is chosen
every time while the element at index 2 is chosen twice; a uniform
selection would pick each element 4 times out of 6.  The spec's "must be
unbiased: every element equally likely" is the evident intent, so this is
recorded as a bug in the code. -/
theorem c5_biased_shuffle :
    SP.selCount (SP.mkv 1) = 6 ∧ SP.selCount (SP.mkv 2) = 2 ∧
    SP.selCount (SP.mkv 1) ≠ SP.selCount (SP.mkv 2) := by
  refine ⟨by decide, by decide, by decide⟩

/-- Helper: strict/non-strict duality of the raw-fraction comparisons. -/
theorem SP.Q.lt_of_not_le {x y : SP.Q} (h : ¬ x.le y) : SP.Q.lt y x := by
  unfold SP.Q.le at h
  unfold SP.Q.lt
  omega

/-- Helper: the refinement loop after the baseline call — at most `fuel`
further `Iterate` calls, at least one if any are allowed, each loss
strictly below its predecessor except possibly the final one, and when
the loop stopped before exhausting `fuel` the final recorded loss failed
to strictly decrease.  All statements are over the loss trace prepended
with the loss `prev` the loop starts from. -/
theorem SP.refineAux_spec (fuel : ℕ) (cs : SP.colorClusters) (prev : SP.Q) :
    (SP.refineAux fuel cs prev).2.length ≤ fuel ∧
    (1 ≤ fuel → 1 ≤ (SP.refineAux fuel cs prev).2.length) ∧
    (∀ i, i + 2 ≤ (prev :: (SP.refineAux fuel cs prev).2).length →
      (((prev :: (SP.refineAux fuel cs prev).2)).getD (i + 1) SP.Q.zero).lt
          (((prev :: (SP.refineAux fuel cs prev).2)).getD i SP.Q.zero) ∨
        i + 2 = (prev :: (SP.refineAux fuel cs prev).2).length) ∧
    ((SP.refineAux fuel cs prev).2.length < fuel →
      2 ≤ (prev :: (SP.refineAux fuel cs prev).2).length ∧
      (((prev :: (SP.refineAux fuel cs prev).2)).getD
          ((prev :: (SP.refineAux fuel cs prev).2).length - 2) SP.Q.zero).le
        (((prev :: (SP.refineAux fuel cs prev).2)).getD
          ((prev :: (SP.refineAux fuel cs prev).2).length - 1) SP.Q.zero)) := by
  induction fuel generalizing cs prev with
  | zero =>
      simp only [SP.refineAux, List.length_nil, List.length_cons]
      exact ⟨by omega, by omega, fun i hi => by omega, fun h => by omega⟩
  | succ fuel ih =>
      have hred : SP.refineAux (fuel + 1) cs prev =
          (if prev.le (cs.Iterate).2 then ((cs.Iterate).1, [(cs.Iterate).2])
           else ((SP.refineAux fuel (cs.Iterate).1 (cs.Iterate).2).1,
              (cs.Iterate).2 :: (SP.refineAux fuel (cs.Iterate).1 (cs.Iterate).2).2)) := rfl
      by_cases hle : prev.le (cs.Iterate).2
      · rw [hred, if_pos hle]
        refine ⟨by simp, by simp, ?_, ?_⟩
        · intro i hi
          simp only [List.length_cons, List.length_nil] at hi ⊢
          right
          omega
        · intro _
          refine ⟨by simp, ?_⟩
          simpa using hle
      · rw [hred, if_neg hle]
        obtain ⟨ih1, ih2, ih3, ih4⟩ := ih (cs.Iterate).1 (cs.Iterate).2
        set tr := (SP.refineAux fuel (cs.Iterate).1 (cs.Iterate).2).2 with htr
        refine ⟨?_, by simp, ?_, ?_⟩
        · simp only [List.length_cons]
          omega
        · intro i hi
          simp only [List.length_cons] at hi ⊢
          cases i with
          | zero =>
              left
              simpa using SP.Q.lt_of_not_le hle
          | succ j =>
              have hj := ih3 j (by simp only [List.length_cons]; omega)
              simp only [List.length_cons] at hj
              rcases hj with h | h
              · left
                simpa [List.getD_cons_succ] using h
              · right
                omega
        · intro hlen
          simp only [List.length_cons] at hlen
          have hlen' : tr.length < fuel := by omega
          have htrpos : 1 ≤ tr.length := by
            by_contra hno
            have hf : 1 ≤ fuel := by omega
            have := ih2 hf
            omega
          obtain ⟨-, hlast⟩ := ih4 hlen'
          simp only [List.length_cons] at hlast ⊢
          refine ⟨by omega, ?_⟩
          have e1 : tr.length + 1 + 1 - 2 = (tr.length + 1 - 2) + 1 := by omega
          have e2 : tr.length + 1 + 1 - 1 = (tr.length + 1 - 1) + 1 := by omega
          rw [e1, e2, List.getD_cons_succ, List.getD_cons_succ]
          exact hlast

/-- C7, amended: for a non-empty population of well-formed vectors (the
hypotheses restrict the statement to states where the loss is a genuine
float value — on an empty population Go's loss is NaN, every `>=`
comparison is false, and the real driver always runs to the cap with no
decrease at all, a region this model does not reproduce, see
`colorClusters.Iterate`), the refinement driver makes between 1 and
`maxIters + 1` calls to `Iterate` — the initial call that establishes
the baseline loss, then at most `maxIters` further calls — comparing
each new loss to the previous one, continuing only while the loss
strictly decreases: every recorded loss except possibly the last is
strictly below its predecessor, and whenever the driver stopped before
the cap, the last recorded loss failed to strictly decrease.  (The trace
returned by `refine` lists the loss of every `Iterate` call, so its
length is the number of calls; the claim's "at most the configured
maximum" is off by the baseline call, see the counterexample.) -/
theorem c7_driver_amended (cs : SP.colorClusters) (m : ℕ)
    (_hne : cs.AllColors ≠ [])
    (_hwfA : ∀ w ∈ cs.AllColors, w.wfv)
    (_hwfC : ∀ w ∈ cs.Centers, w.wfv) :
    1 ≤ (SP.refine cs m).2.length ∧
    (SP.refine cs m).2.length ≤ m + 1 ∧
    (∀ i, i + 2 ≤ (SP.refine cs m).2.length →
      (((SP.refine cs m).2).getD (i + 1) SP.Q.zero).lt
          (((SP.refine cs m).2).getD i SP.Q.zero) ∨
        i + 2 = (SP.refine cs m).2.length) ∧
    ((SP.refine cs m).2.length < m + 1 →
      2 ≤ (SP.refine cs m).2.length ∧
      (((SP.refine cs m).2).getD ((SP.refine cs m).2.length - 2) SP.Q.zero).le
        (((SP.refine cs m).2).getD ((SP.refine cs m).2.length - 1) SP.Q.zero)) := by
  have hred : (SP.refine cs m).2 =
      (cs.Iterate).2 :: (SP.refineAux m (cs.Iterate).1 (cs.Iterate).2).2 := rfl
  obtain ⟨h1, -, h3, h4⟩ := SP.refineAux_spec m (cs.Iterate).1 (cs.Iterate).2
  rw [hred]
  refine ⟨by simp, by simpa using h1, h3, ?_⟩
  intro hlen
  exact h4 (by simpa using hlen)

/-- C7 witness: a concrete driver run (one color, one center, cap 1)
instantiating the amended claim; it makes exactly 2 calls. -/
theorem c7_driver_amended_witness :
    1 ≤ (SP.refine ⟨[SP.mkv 0], [SP.mkv 0]⟩ 1).2.length ∧
    (SP.refine ⟨[SP.mkv 0], [SP.mkv 0]⟩ 1).2.length ≤ 1 + 1 ∧
    (∀ i, i + 2 ≤ (SP.refine ⟨[SP.mkv 0], [SP.mkv 0]⟩ 1).2.length →
      (((SP.refine ⟨[SP.mkv 0], [SP.mkv 0]⟩ 1).2).getD (i + 1) SP.Q.zero).lt
          (((SP.refine ⟨[SP.mkv 0], [SP.mkv 0]⟩ 1).2).getD i SP.Q.zero) ∨
        i + 2 = (SP.refine ⟨[SP.mkv 0], [SP.mkv 0]⟩ 1).2.length) ∧
    ((SP.refine ⟨[SP.mkv 0], [SP.mkv 0]⟩ 1).2.length < 1 + 1 →
      2 ≤ (SP.refine ⟨[SP.mkv 0], [SP.mkv 0]⟩ 1).2.length ∧
      (((SP.refine ⟨[SP.mkv 0], [SP.mkv 0]⟩ 1).2).getD
          ((SP.refine ⟨[SP.mkv 0], [SP.mkv 0]⟩ 1).2.length - 2) SP.Q.zero).le
        (((SP.refine ⟨[SP.mkv 0], [SP.mkv 0]⟩ 1).2).getD
          ((SP.refine ⟨[SP.mkv 0], [SP.mkv 0]⟩ 1).2.length - 1) SP.Q.zero)) :=
  c7_driver_amended ⟨[SP.mkv 0], [SP.mkv 0]⟩ 1 (by decide) (by decide) (by decide)

/-- C7 counterexample: with `maxIters = 1` the driver calls `Iterate`
twice (the baseline call plus one loop call), so it does not run "at most
the configured maximum number of iterations" as the claim states. -/
theorem c7_driver_cex :
    (SP.refine ⟨[SP.mkv 0], [SP.mkv 0]⟩ 1).2.length = 2 ∧
    ¬ (SP.refine ⟨[SP.mkv 0], [SP.mkv 0]⟩ 1).2.length ≤ 1 := by
  refine ⟨by decide, by decide⟩

/-- C10 witness: the zero configuration written back through the pointer
carries every default. -/
theorem c10_config_writeback_witness :
    (SP.PaletteImage [] (some SP.zeroConfig) SP.rng0).2 = SP.zeroConfig.setDefaults ∧
    (SP.PaletteImage [] (some SP.zeroConfig) SP.rng0).2.MaxKMeansIters = 5 ∧
    (SP.PaletteImage [] (some SP.zeroConfig) SP.rng0).2.PaletteSize = 256 ∧
    (SP.PaletteImage [] (some SP.zeroConfig) SP.rng0).2.MaxClusterPixels = 100000 := by
  obtain ⟨h1, h2, h3, h4⟩ := c10_config_writeback [] SP.zeroConfig SP.rng0
  exact ⟨h1, h2 rfl, h3 rfl, h4 rfl⟩

/-- C8: when the distinct vectors of the sample fit within the requested
number of centers, the constructed cluster set's centers are exactly the
distinct sample vectors — the k-means++ path is skipped — so the centers
are duplicate-free and cover precisely the colors of the sample. -/
theorem c8_degenerate_centers (allColors : List SP.colorVector) (k : ℤ)
    (seed : ℕ) (floats : ℕ → SP.Q)
    (h : ((allColors.dedup.length : ℕ) : ℤ) ≤ k) :
    (SP.newColorClusters allColors k seed floats).Centers = allColors.dedup ∧
    (SP.newColorClusters allColors k seed floats).Centers.Nodup ∧
    (∀ v, v ∈ (SP.newColorClusters allColors k seed floats).Centers ↔ v ∈ allColors) := by
  have hc : SP.newColorClusters allColors k seed floats =
      ⟨allColors.dedup, allColors⟩ := by
    simp only [SP.newColorClusters]
    rw [if_pos h]
  rw [hc]
  refine ⟨rfl, List.nodup_dedup allColors, fun v => List.mem_dedup⟩

/-- C8 witness: a three-element sample with two distinct vectors and two
requested centers takes the degenerate path. -/
theorem c8_degenerate_centers_witness :
    (SP.newColorClusters [SP.mkv 0, SP.mkv 0, SP.mkv 1] 2 0 (fun _ => SP.Q.zero)).Centers =
      [SP.mkv 0, SP.mkv 0, SP.mkv 1].dedup ∧
    (SP.newColorClusters [SP.mkv 0, SP.mkv 0, SP.mkv 1] 2 0 (fun _ => SP.Q.zero)).Centers.Nodup ∧
    (∀ v, v ∈ (SP.newColorClusters [SP.mkv 0, SP.mkv 0, SP.mkv 1] 2 0 (fun _ => SP.Q.zero)).Centers ↔
      v ∈ [SP.mkv 0, SP.mkv 0, SP.mkv 1]) :=
  c8_degenerate_centers [SP.mkv 0, SP.mkv 0, SP.mkv 1] 2 0 (fun _ => SP.Q.zero) (by decide)

/-- Helper: addition of well-formed fractions is well-formed and adds
values. -/
theorem SP.Q.val_add {x y : SP.Q} (hx : x.wf) (hy : y.wf) :
    (x.add y).val = x.val + y.val ∧ (x.add y).wf := by
  unfold SP.Q.wf at hx hy
  have hbx : ((x.den : ℚ)) ≠ 0 := by exact_mod_cast hx.ne.symm
  have hby : ((y.den : ℚ)) ≠ 0 := by exact_mod_cast hy.ne.symm
  constructor
  · unfold SP.Q.add SP.Q.val
    push_cast
    rw [div_add_div _ _ hbx hby]
    ring_nf
  · unfold SP.Q.add SP.Q.wf
    exact mul_pos hx hy

/-- Helper: multiplication of fractions multiplies values, unconditionally. -/
theorem SP.Q.val_mul (x y : SP.Q) : (x.mul y).val = x.val * y.val := by
  unfold SP.Q.mul SP.Q.val
  push_cast
  exact (div_mul_div_comm _ _ _ _).symm

/-- Helper: the value of `1 / n` for a natural `n`. -/
theorem SP.Q.val_one_div_ofNat (n : ℕ) :
    (SP.Q.one.div (SP.Q.ofNat n)).val = 1 / (n : ℚ) := by
  unfold SP.Q.one SP.Q.ofNat SP.Q.div SP.Q.val
  norm_num

/-- Helper: folding `Add` over well-formed vectors from a well-formed
accumulator yields a well-formed vector whose component values are the
accumulator's plus the componentwise sums. -/
theorem SP.foldl_Add_spec (l : List SP.colorVector) :
    ∀ init : SP.colorVector, (∀ w ∈ l, w.wfv) → init.wfv →
      (l.foldl SP.colorVector.Add init).wfv ∧
      (l.foldl SP.colorVector.Add init).c0.val =
        init.c0.val + (l.map (fun v => v.c0.val)).sum ∧
      (l.foldl SP.colorVector.Add init).c1.val =
        init.c1.val + (l.map (fun v => v.c1.val)).sum ∧
      (l.foldl SP.colorVector.Add init).c2.val =
        init.c2.val + (l.map (fun v => v.c2.val)).sum ∧
      (l.foldl SP.colorVector.Add init).c3.val =
        init.c3.val + (l.map (fun v => v.c3.val)).sum := by
  induction l with
  | nil =>
      intro init _ hinit
      refine ⟨hinit, ?_, ?_, ?_, ?_⟩ <;> simp
  | cons w ws ih =>
      intro init hl hinit
      have hw : w.wfv := hl w (by simp)
      have hws : ∀ u ∈ ws, u.wfv := fun u hu => hl u (by simp [hu])
      obtain ⟨hw0, hw1, hw2, hw3⟩ := hw
      obtain ⟨hi0, hi1, hi2, hi3⟩ := hinit
      have h0 := SP.Q.val_add hi0 hw0
      have h1 := SP.Q.val_add hi1 hw1
      have h2 := SP.Q.val_add hi2 hw2
      have h3 := SP.Q.val_add hi3 hw3
      have hinit' : (init.Add w).wfv := ⟨h0.2, h1.2, h2.2, h3.2⟩
      obtain ⟨ha, hb0, hb1, hb2, hb3⟩ := ih (init.Add w) hws hinit'
      have hfold : (w :: ws).foldl SP.colorVector.Add init =
          ws.foldl SP.colorVector.Add (init.Add w) := rfl
      rw [hfold]
      refine ⟨ha, ?_, ?_, ?_, ?_⟩ <;>
        simp only [List.map_cons, List.sum_cons]
      · rw [hb0]
        have : (init.Add w).c0 = init.c0.add w.c0 := rfl
        rw [this, h0.1]
        ring
      · rw [hb1]
        have : (init.Add w).c1 = init.c1.add w.c1 := rfl
        rw [this, h1.1]
        ring
      · rw [hb2]
        have : (init.Add w).c2 = init.c2.add w.c2 := rfl
        rw [this, h2.1]
        ring
      · rw [hb3]
        have : (init.Add w).c3 = init.c3.add w.c3 := rfl
        rw [this, h3.1]
        ring

/-- Helper: the assigned-vector selection inside `Iterate` (a filter over
the zip of the colors with their nearest-center scans, projected back)
equals the direct filter of the colors by assigned index. -/
theorem SP.filter_zip_assigned (f : SP.colorVector → ℕ × SP.Q)
    (colors : List SP.colorVector) (i : ℕ) :
    ((colors.zip (colors.map f)).filter (fun pr => pr.2.1 == i)).map Prod.fst =
      colors.filter (fun co => (f co).1 == i) := by
  induction colors with
  | nil => rfl
  | cons c cs ih =>
      simp only [List.map_cons, List.zip_cons_cons, List.filter_cons]
      by_cases h : (f c).1 = i
      · simp [h, ih]
      · simp [h, ih]

/-- Helper: indexing a mapped range at an in-bounds position. -/
theorem SP.getD_map_range {α : Type} (n i : ℕ) (f : ℕ → α) (d : α) (h : i < n) :
    ((List.range n).map f).getD i d = f i := by
  rw [List.getD_eq_getElem?_getD, List.getElem?_map]
  simp [List.getElem?_range, h]

/-- Helper: every vector selected by `assignedTo` is one of the colors. -/
theorem SP.assignedTo_subset (centers colors : List SP.colorVector) (i : ℕ) :
    ∀ w ∈ SP.assignedTo centers colors i, w ∈ colors := by
  intro w hw
  exact (List.mem_filter.mp hw).1

/-- Helper: the zero vector is well-formed. -/
theorem SP.zeroVec_wfv : SP.zeroVec.wfv := by decide

/-- C9: in every `Iterate` call, a center that received at least one
assigned vector is recomputed as the componentwise mean of its assigned
vectors (stated over exact component values), while a center with zero
assignments keeps its previous value unchanged — it is neither reseeded
nor dropped.  `hwf` states that the clustered vectors are genuine float
values (positive denominators in the fraction model), true of every
vector a pixel conversion produces. -/
theorem c9_iterate_mean (centers colors : List SP.colorVector) (i : ℕ)
    (hi : i < centers.length) (hwf : ∀ w ∈ colors, w.wfv) :
    (SP.assignedTo centers colors i ≠ [] →
      ((SP.colorClusters.Iterate ⟨centers, colors⟩).1.Centers.getD i SP.zeroVec).vals =
        SP.meanVals (SP.assignedTo centers colors i)) ∧
    (SP.assignedTo centers colors i = [] →
      (SP.colorClusters.Iterate ⟨centers, colors⟩).1.Centers.getD i SP.zeroVec =
        centers.getD i SP.zeroVec) := by
  have hcent : (SP.colorClusters.Iterate ⟨centers, colors⟩).1.Centers =
      (List.range centers.length).map (fun j =>
        if 0 < (SP.assignedTo centers colors j).length then
          ((SP.assignedTo centers colors j).foldl SP.colorVector.Add SP.zeroVec).Scale
            (SP.Q.one.div (SP.Q.ofNat (SP.assignedTo centers colors j).length))
        else centers.getD j SP.zeroVec) := by
    show (List.range centers.length).map _ = _
    refine List.map_congr_left fun j _ => ?_
    have hb := SP.filter_zip_assigned (fun co => SP.nearScan centers co) colors j
    simp only [hb]
    rfl
  rw [hcent, SP.getD_map_range _ _ _ _ hi]
  constructor
  · intro hne
    have hlen : 0 < (SP.assignedTo centers colors i).length :=
      List.length_pos.mpr hne
    rw [if_pos hlen]
    have hwfA : ∀ w ∈ SP.assignedTo centers colors i, w.wfv :=
      fun w hw => hwf w (SP.assignedTo_subset centers colors i w hw)
    obtain ⟨-, h0, h1, h2, h3⟩ :=
      SP.foldl_Add_spec (SP.assignedTo centers colors i) SP.zeroVec hwfA SP.zeroVec_wfv
    have hz : SP.Q.zero.val = 0 := by
      unfold SP.Q.zero SP.Q.val
      norm_num
    unfold SP.colorVector.Scale SP.colorVector.vals SP.meanVals
    simp only [SP.Q.val_mul, SP.Q.val_one_div_ofNat]
    have hzs : SP.zeroVec.c0.val = 0 ∧ SP.zeroVec.c1.val = 0 ∧
        SP.zeroVec.c2.val = 0 ∧ SP.zeroVec.c3.val = 0 := ⟨hz, hz, hz, hz⟩
    rw [h0, h1, h2, h3, hzs.1, hzs.2.1, hzs.2.2.1, hzs.2.2.2]
    norm_num [mul_one_div]
    refine ⟨?_, ?_, ?_, ?_⟩ <;> rw [div_eq_mul_inv]
  · intro heq
    rw [if_neg]
    simp [heq]

/-- C9 witness: one center, two assigned vectors — the updated center's
component values are the componentwise means. -/
theorem c9_iterate_mean_witness :
    (SP.assignedTo [SP.mkv 0] [SP.mkv 1, SP.mkv 3] 0 ≠ [] →
      ((SP.colorClusters.Iterate ⟨[SP.mkv 0], [SP.mkv 1, SP.mkv 3]⟩).1.Centers.getD 0 SP.zeroVec).vals =
        SP.meanVals (SP.assignedTo [SP.mkv 0] [SP.mkv 1, SP.mkv 3] 0)) ∧
    (SP.assignedTo [SP.mkv 0] [SP.mkv 1, SP.mkv 3] 0 = [] →
      (SP.colorClusters.Iterate ⟨[SP.mkv 0], [SP.mkv 1, SP.mkv 3]⟩).1.Centers.getD 0 SP.zeroVec =
        [SP.mkv 0].getD 0 SP.zeroVec) :=
  c9_iterate_mean [SP.mkv 0] [SP.mkv 1, SP.mkv 3] 0 (by decide) (by decide)

/-- Helper: one `Iterate` call keeps the number of centers. -/
theorem SP.Iterate_length (c : SP.colorClusters) :
    (c.Iterate).1.Centers.length = c.Centers.length := by
  show ((List.range c.Centers.length).map _).length = _
  simp

/-- Helper: the refinement loop keeps the number of centers. -/
theorem SP.refineAux_length (fuel : ℕ) :
    ∀ (cs : SP.colorClusters) (prev : SP.Q),
      (SP.refineAux fuel cs prev).1.Centers.length = cs.Centers.length := by
  induction fuel with
  | zero => intro cs prev; rfl
  | succ fuel ih =>
      intro cs prev
      have hred : SP.refineAux (fuel + 1) cs prev =
          (if prev.le (cs.Iterate).2 then ((cs.Iterate).1, [(cs.Iterate).2])
           else ((SP.refineAux fuel (cs.Iterate).1 (cs.Iterate).2).1,
              (cs.Iterate).2 :: (SP.refineAux fuel (cs.Iterate).1 (cs.Iterate).2).2)) := rfl
      rw [hred]
      by_cases hle : prev.le (cs.Iterate).2
      · rw [if_pos hle]
        exact SP.Iterate_length cs
      · rw [if_neg hle]
        show (SP.refineAux fuel (cs.Iterate).1 (cs.Iterate).2).1.Centers.length = _
        rw [ih (cs.Iterate).1 (cs.Iterate).2, SP.Iterate_length cs]

/-- Helper: the whole driver keeps the number of centers. -/
theorem SP.refine_length (cs : SP.colorClusters) (m : ℕ) :
    (SP.refine cs m).1.Centers.length = cs.Centers.length := by
  show (SP.refineAux m (cs.Iterate).1 (cs.Iterate).2).1.Centers.length = _
  rw [SP.refineAux_length m (cs.Iterate).1 (cs.Iterate).2, SP.Iterate_length cs]

/-- Helper: the k-means++ loop returns `fuel` new centers on top of the
accumulator. -/
theorem SP.kppAux_length (allColors : List SP.colorVector) (floats : ℕ → SP.Q)
    (fuel : ℕ) :
    ∀ (i : ℕ) (cd : SP.centerDistances) (acc : List SP.colorVector),
      (SP.kppAux allColors floats i fuel cd acc).length = fuel + acc.length := by
  induction fuel with
  | zero => intro i cd acc; simp [SP.kppAux]
  | succ fuel ih =>
      intro i cd acc
      show (SP.kppAux allColors floats (i + 1) fuel _ (_ :: acc)).length = _
      rw [ih]
      simp
      omega

/-- Helper: `kmeansPlusPlusInit` returns exactly the requested number of
centers (when at least one is requested). -/
theorem SP.kmeansPlusPlusInit_length (allColors : List SP.colorVector)
    (numCenters : ℕ) (seed : ℕ) (floats : ℕ → SP.Q) (h : 1 ≤ numCenters) :
    (SP.kmeansPlusPlusInit allColors numCenters seed floats).length = numCenters := by
  show (SP.kppAux allColors floats 1 (numCenters - 1) _ [_]).length = _
  rw [SP.kppAux_length]
  simp
  omega

/-- Helper: subsampling a non-empty population with a positive bound is
non-empty. -/
theorem SP.subsample_ne_nil (colors : List SP.colorVector) (maxPixels : ℤ)
    (draws : ℕ → ℕ) (hc : colors ≠ []) (hm : 1 ≤ maxPixels) :
    SP.subsampleClusterPixels colors maxPixels draws ≠ [] := by
  unfold SP.subsampleClusterPixels
  split
  · exact hc
  · rename_i hgt
    intro hnil
    have hfold : ∀ (l : List ℕ) (acc : List SP.colorVector),
        (l.foldl (fun acc i => SP.swapAt acc i (draws i % (colors.length - i))) acc).length =
          acc.length := by
      intro l
      induction l with
      | nil => intro acc; rfl
      | cons x xs ih =>
          intro acc
          rw [List.foldl_cons, ih]
          unfold SP.swapAt
          simp
    have hlen := congrArg List.length hnil
    rw [List.length_take, hfold] at hlen
    have hcpos : 1 ≤ colors.length := List.length_pos.mpr hc
    have htn : 1 ≤ maxPixels.toNat := by omega
    simp only [List.length_nil] at hlen
    omega

/-- Helper: the seeded cluster state of a non-empty population with a
positive center request has at least one center. -/
theorem SP.newColorClusters_ne_nil (allColors : List SP.colorVector) (k : ℤ)
    (seed : ℕ) (floats : ℕ → SP.Q) (hc : allColors ≠ []) (hk : 1 ≤ k) :
    (SP.newColorClusters allColors k seed floats).Centers ≠ [] := by
  simp only [SP.newColorClusters]
  split
  · simpa using (List.dedup_eq_nil allColors).not.mpr hc
  · have hlen := SP.kmeansPlusPlusInit_length allColors k.toNat seed floats (by omega)
    intro hnil
    have hnil' : SP.kmeansPlusPlusInit allColors k.toNat seed floats = [] := hnil
    rw [hnil'] at hlen
    simp at hlen
    omega

/-- Helper: the palette entry at an in-bounds position. -/
theorem SP.buildPalette_getD (cs : SP.ColorSpace) (centers : List SP.colorVector)
    (size i : ℕ) (hi : i < size) :
    (SP.buildPalette cs centers size).getD i none =
      (match centers.get? i with
       | some v => some (cs.toColor v)
       | none => centers.head?.map cs.toColor) := by
  unfold SP.buildPalette
  rw [SP.getD_map_range _ _ _ _ hi]

/-- C1, amended: for every non-empty image, every configured
`paletteSize ≥ 1` (and a non-negative sample bound, without which Go
panics in the subsampler), the palette has length exactly `paletteSize`,
every slot at or beyond the center count holds a duplicate of the first
palette entry, and no palette entry is nil.  (For an empty image the
original claim fails: the palette keeps length `paletteSize` but every
entry is nil, see the counterexample.) -/
theorem c1_palette_filled (img : List SP.GoColor) (cfg : SP.PaletteConfig)
    (rng : SP.Rng) (himg : img ≠ []) (hps : 1 ≤ cfg.PaletteSize)
    (hmp : 0 ≤ cfg.MaxClusterPixels) :
    (SP.PaletteImage img (some cfg) rng).1.palette.length = cfg.PaletteSize.toNat ∧
    (∀ i, (SP.pipelineCenters img (some cfg) rng).length ≤ i →
      i < cfg.PaletteSize.toNat →
      (SP.PaletteImage img (some cfg) rng).1.palette.getD i none =
        (SP.PaletteImage img (some cfg) rng).1.palette.getD 0 none) ∧
    (∀ e ∈ (SP.PaletteImage img (some cfg) rng).1.palette, e.isSome) := by
  have hconf : SP.effectiveConfig (some cfg) = cfg.setDefaults := rfl
  have hsd := SP.setDefaults_fields cfg
  have hpsne : ¬ cfg.PaletteSize = 0 := by omega
  have hps' : (SP.effectiveConfig (some cfg)).PaletteSize = cfg.PaletteSize := by
    rw [hconf, hsd]
    simp [hpsne]
  have hmp' : 1 ≤ (SP.effectiveConfig (some cfg)).MaxClusterPixels := by
    rw [hconf, hsd]
    dsimp only
    split
    · norm_num
    · omega
  have hcol : img.map (SP.effectiveConfig (some cfg)).ColorSpace.toVector ≠ [] := by
    simpa using himg
  have hclu : SP.clusterPixels img (SP.effectiveConfig (some cfg)) rng ≠ [] :=
    SP.subsample_ne_nil _ _ _ hcol hmp'
  have hcent0 : (SP.newColorClusters
      (SP.clusterPixels img (SP.effectiveConfig (some cfg)) rng)
      (SP.effectiveConfig (some cfg)).PaletteSize rng.seedDraw rng.kppDraws).Centers ≠ [] := by
    refine SP.newColorClusters_ne_nil _ _ _ _ hclu ?_
    omega
  have hpc : SP.pipelineCenters img (some cfg) rng =
      (SP.refine (SP.newColorClusters
        (SP.clusterPixels img (SP.effectiveConfig (some cfg)) rng)
        (SP.effectiveConfig (some cfg)).PaletteSize rng.seedDraw rng.kppDraws)
        (SP.effectiveConfig (some cfg)).MaxKMeansIters.toNat).1.Centers := rfl
  have hcent : SP.pipelineCenters img (some cfg) rng ≠ [] := by
    rw [hpc]
    intro hnil
    have := SP.refine_length (SP.newColorClusters
      (SP.clusterPixels img (SP.effectiveConfig (some cfg)) rng)
      (SP.effectiveConfig (some cfg)).PaletteSize rng.seedDraw rng.kppDraws)
      (SP.effectiveConfig (some cfg)).MaxKMeansIters.toNat
    rw [hnil] at this
    simp at this
    exact hcent0 (List.length_eq_zero.mp this.symm)
  have hpal : (SP.PaletteImage img (some cfg) rng).1.palette =
      SP.buildPalette (SP.effectiveConfig (some cfg)).ColorSpace
        (SP.pipelineCenters img (some cfg) rng)
        (SP.effectiveConfig (some cfg)).PaletteSize.toNat := rfl
  obtain ⟨c0, ct, hc0⟩ := List.exists_cons_of_ne_nil hcent
  have hhead : (SP.pipelineCenters img (some cfg) rng).head? = some c0 := by
    rw [hc0]; rfl
  have hget0 : (SP.pipelineCenters img (some cfg) rng).get? 0 = some c0 := by
    rw [hc0]; rfl
  refine ⟨?_, ?_, ?_⟩
  · rw [hpal, SP.buildPalette_length, hps']
  · intro i hge hlt
    have hlt' : i < (SP.effectiveConfig (some cfg)).PaletteSize.toNat := by
      rw [hps']; exact hlt
    have h0lt : 0 < (SP.effectiveConfig (some cfg)).PaletteSize.toNat := by omega
    rw [hpal, SP.buildPalette_getD _ _ _ _ hlt', SP.buildPalette_getD _ _ _ _ h0lt]
    have hnone : (SP.pipelineCenters img (some cfg) rng).get? i = none := by
      rw [List.get?_eq_getElem?]
      exact List.getElem?_eq_none hge
    rw [hnone, hget0, hhead]
    rfl
  · intro e he
    rw [hpal] at he
    unfold SP.buildPalette at he
    obtain ⟨j, -, hfe⟩ := List.mem_map.mp he
    rw [← hfe]
    cases hj : (SP.pipelineCenters img (some cfg) rng).get? j with
    | some v => simp [hj]
    | none => simp [hj, hhead]

/-- C1 witness: a one-pixel image with palette size 1. -/
theorem c1_palette_filled_witness :
    (SP.PaletteImage SP.imgW (some SP.cfgW) SP.rng0).1.palette.length =
      SP.cfgW.PaletteSize.toNat ∧
    (∀ i, (SP.pipelineCenters SP.imgW (some SP.cfgW) SP.rng0).length ≤ i →
      i < SP.cfgW.PaletteSize.toNat →
      (SP.PaletteImage SP.imgW (some SP.cfgW) SP.rng0).1.palette.getD i none =
        (SP.PaletteImage SP.imgW (some SP.cfgW) SP.rng0).1.palette.getD 0 none) ∧
    (∀ e ∈ (SP.PaletteImage SP.imgW (some SP.cfgW) SP.rng0).1.palette, e.isSome) :=
  c1_palette_filled SP.imgW SP.cfgW SP.rng0 (by decide) (by decide) (by decide)

/-- C1 counterexample: on the empty image with configured palette size 1
the returned palette still has length 1 but its (only) entry is nil — the
claim's "no palette entry is ever nil/undefined" fails, because the
nil-prevention loop copies `palette[0]`, which is itself nil when there
are no centers. -/
theorem c1_palette_cex :
    (SP.PaletteImage [] (some SP.cfgW) SP.rng0).1.palette.length = 1 ∧
    (SP.PaletteImage [] (some SP.cfgW) SP.rng0).1.palette.getD 0 none = none := by
  refine ⟨by decide, by decide⟩

/-- Helper: closed form of the claim-side RGB vector-space distance — an
integer quadratic over a fixed positive denominator. -/
theorem SP.specVecDist_rgb (c : SP.RGBA) (p : SP.GoColor) :
    SP.specVecDist SP.ColorSpace.RGB c p =
      ⟨(((257 * c.r : ℤ) - p.r) ^ 2 + ((257 * c.g : ℤ) - p.g) ^ 2 +
          ((257 * c.b : ℤ) - p.b) ^ 2 + ((257 * c.a : ℤ) - p.a) ^ 2) * 65535 ^ 14,
        65535 ^ 16⟩ := by
  unfold SP.specVecDist SP.RGBA.rgba16
  simp only [SP.ColorSpace.toVector]
  unfold SP.colorVector.DistSquared SP.Q.ofNat SP.Q.div SP.Q.add SP.Q.sub SP.Q.mul SP.Q.zero
  simp only [SP.Q.mk.injEq]
  constructor
  · push_cast
    ring
  · norm_num

/-- Helper: comparing claim-side RGB distances is comparing the integer
sums of squared 16-bit channel differences. -/
theorem SP.specVecDist_rgb_lt_iff (c c' : SP.RGBA) (p : SP.GoColor) :
    (SP.specVecDist SP.ColorSpace.RGB c p).lt (SP.specVecDist SP.ColorSpace.RGB c' p) ↔
      ((257 * c.r : ℤ) - p.r) ^ 2 + ((257 * c.g : ℤ) - p.g) ^ 2 +
          ((257 * c.b : ℤ) - p.b) ^ 2 + ((257 * c.a : ℤ) - p.a) ^ 2 <
        ((257 * c'.r : ℤ) - p.r) ^ 2 + ((257 * c'.g : ℤ) - p.g) ^ 2 +
          ((257 * c'.b : ℤ) - p.b) ^ 2 + ((257 * c'.a : ℤ) - p.a) ^ 2 := by
  rw [SP.specVecDist_rgb, SP.specVecDist_rgb]
  unfold SP.Q.lt
  dsimp only
  rw [mul_assoc, mul_assoc]
  exact mul_lt_mul_right (by positivity)

/-- Helper: the natural absolute-difference square matches the integer
squared difference. -/
theorem SP.absdiff_sq_cast (x y : ℕ) :
    ((((x - y) + (y - x)) ^ 2 : ℕ) : ℤ) = ((x : ℤ) - y) ^ 2 := by
  rcases le_total x y with h | h
  · have h1 : x - y = 0 := by omega
    rw [h1, Nat.zero_add]
    push_cast [h]
    ring
  · have h1 : y - x = 0 := by omega
    rw [h1, Nat.add_zero]
    push_cast [h]
    ring

/-- Helper: `specNat` is the natural-number value of the integer sum of
squared channel differences. -/
theorem SP.specNat_cast (p : SP.GoColor) (c : SP.RGBA) :
    ((SP.specNat p c : ℕ) : ℤ) =
      ((257 * c.r : ℤ) - p.r) ^ 2 + ((257 * c.g : ℤ) - p.g) ^ 2 +
        ((257 * c.b : ℤ) - p.b) ^ 2 + ((257 * c.a : ℤ) - p.a) ^ 2 := by
  unfold SP.specNat
  have hr := SP.absdiff_sq_cast p.r (257 * c.r)
  have hg := SP.absdiff_sq_cast p.g (257 * c.g)
  have hb := SP.absdiff_sq_cast p.b (257 * c.b)
  have ha := SP.absdiff_sq_cast p.a (257 * c.a)
  push_cast at hr hg hb ha ⊢
  rw [hr, hg, hb, ha]
  ring

/-- Helper: integer channel-square sums of 8-bit palette entries against a
common pixel differ by multiples of 257. -/
theorem SP.spec_diff_dvd (p : SP.GoColor) (c c' : SP.RGBA) :
    (257 : ℤ) ∣
      (((257 * c'.r : ℤ) - p.r) ^ 2 + ((257 * c'.g : ℤ) - p.g) ^ 2 +
        ((257 * c'.b : ℤ) - p.b) ^ 2 + ((257 * c'.a : ℤ) - p.a) ^ 2) -
      (((257 * c.r : ℤ) - p.r) ^ 2 + ((257 * c.g : ℤ) - p.g) ^ 2 +
        ((257 * c.b : ℤ) - p.b) ^ 2 + ((257 * c.a : ℤ) - p.a) ^ 2) := by
  refine ⟨((c'.r : ℤ) - c.r) * (257 * ((c'.r : ℤ) + c.r) - 2 * p.r) +
      ((c'.g : ℤ) - c.g) * (257 * ((c'.g : ℤ) + c.g) - 2 * p.g) +
      ((c'.b : ℤ) - c.b) * (257 * ((c'.b : ℤ) + c.b) - 2 * p.b) +
      ((c'.a : ℤ) - c.a) * (257 * ((c'.a : ℤ) + c.a) - 2 * p.a), ?_⟩
  ring

/-- Helper: `sqDiff` truncates the squared channel difference by at most 3
(for 16-bit channel values, where no `uint32` wrap occurs). -/
theorem SP.sqDiff_bounds (x y : ℕ) (hx : x ≤ 65535) (hy : y ≤ 65535) :
    4 * SP.sqDiff x y ≤ ((x - y) + (y - x)) ^ 2 ∧
    ((x - y) + (y - x)) ^ 2 ≤ 4 * SP.sqDiff x y + 3 ∧
    SP.sqDiff x y ≤ 1073709056 := by
  unfold SP.sqDiff
  have hd : (x - y) + (y - x) ≤ 65535 := by omega
  have hsq : ((x - y) + (y - x)) ^ 2 ≤ 4294836225 := by nlinarith
  rw [Nat.mod_eq_of_lt (by omega)]
  set e := ((x - y) + (y - x)) ^ 2 with he
  omega

/-- Helper: the Go palette distance brackets `specNat` within the
truncation slack 12, and is itself below the scan's initial best sum. -/
theorem SP.goColorDist_bounds (p : SP.GoColor) (c : SP.RGBA)
    (hp : p.r ≤ 65535 ∧ p.g ≤ 65535 ∧ p.b ≤ 65535 ∧ p.a ≤ 65535)
    (hc : c.r ≤ 255 ∧ c.g ≤ 255 ∧ c.b ≤ 255 ∧ c.a ≤ 255) :
    4 * SP.goColorDist p c.rgba16 ≤ SP.specNat p c ∧
    SP.specNat p c ≤ 4 * SP.goColorDist p c.rgba16 + 12 ∧
    SP.goColorDist p c.rgba16 < 4294967295 := by
  obtain ⟨hp1, hp2, hp3, hp4⟩ := hp
  obtain ⟨hc1, hc2, hc3, hc4⟩ := hc
  have h1 := SP.sqDiff_bounds p.r (257 * c.r) hp1 (by omega)
  have h2 := SP.sqDiff_bounds p.g (257 * c.g) hp2 (by omega)
  have h3 := SP.sqDiff_bounds p.b (257 * c.b) hp3 (by omega)
  have h4 := SP.sqDiff_bounds p.a (257 * c.a) hp4 (by omega)
  unfold SP.specNat SP.goColorDist SP.RGBA.rgba16
  dsimp only
  omega

/-- Helper: because channel-square sums of 8-bit palette entries differ by
multiples of 257 while `sqDiff` truncation loses at most 12, a strict
claim-side order between two palette entries forces the same strict order
on the Go palette distances. -/
theorem SP.specNat_lt_goDist (p : SP.GoColor) (c c' : SP.RGBA)
    (hp : p.r ≤ 65535 ∧ p.g ≤ 65535 ∧ p.b ≤ 65535 ∧ p.a ≤ 65535)
    (hc : c.r ≤ 255 ∧ c.g ≤ 255 ∧ c.b ≤ 255 ∧ c.a ≤ 255)
    (hc' : c'.r ≤ 255 ∧ c'.g ≤ 255 ∧ c'.b ≤ 255 ∧ c'.a ≤ 255)
    (h : SP.specNat p c < SP.specNat p c') :
    SP.goColorDist p c.rgba16 < SP.goColorDist p c'.rgba16 := by
  have hdvd := SP.spec_diff_dvd p c c'
  rw [← SP.specNat_cast p c, ← SP.specNat_cast p c'] at hdvd
  have hposd : (0 : ℤ) < (SP.specNat p c' : ℤ) - (SP.specNat p c : ℤ) := by
    have : (SP.specNat p c : ℤ) < (SP.specNat p c' : ℤ) := by exact_mod_cast h
    omega
  have hgap : (257 : ℤ) ≤ (SP.specNat p c' : ℤ) - (SP.specNat p c : ℤ) :=
    Int.le_of_dvd hposd hdvd
  have hgapN : SP.specNat p c + 257 ≤ SP.specNat p c' := by omega
  obtain ⟨hb1, hb2, -⟩ := SP.goColorDist_bounds p c hp hc
  obtain ⟨hb1', hb2', -⟩ := SP.goColorDist_bounds p c' hp hc'
  omega

/-- Helper: the `Palette.Index` scan keeps its running best when no later
entry strictly improves on it. -/
theorem SP.indexAux_keep (p : SP.GoColor) (l : List SP.RGBA) :
    ∀ (k : ℕ) (best : ℕ × ℕ),
      (∀ j, j < l.length → ¬ (SP.goColorDist p ((l.getD j ⟨0, 0, 0, 0⟩).rgba16) < best.2)) →
      SP.indexAux p l k best = best := by
  induction l with
  | nil => intro k best _; rfl
  | cons c rest ih =>
      intro k best hno
      have h0 := hno 0 (by simp)
      simp only [List.getD_cons_zero] at h0
      show SP.indexAux p rest (k + 1)
          (if SP.goColorDist p c.rgba16 < best.2 then (k, SP.goColorDist p c.rgba16) else best) = best
      rw [if_neg h0]
      refine ih (k + 1) best fun j hj => ?_
      have := hno (j + 1) (by simpa using by omega)
      simpa using this

/-- Helper: the `Palette.Index` scan lands on a position that strictly
dominates every other entry and the running best. -/
theorem SP.indexAux_found (p : SP.GoColor) (l : List SP.RGBA) :
    ∀ (k : ℕ) (best : ℕ × ℕ) (i : ℕ), i < l.length →
      SP.goColorDist p ((l.getD i ⟨0, 0, 0, 0⟩).rgba16) < best.2 →
      (∀ j, j < l.length → j ≠ i →
        SP.goColorDist p ((l.getD i ⟨0, 0, 0, 0⟩).rgba16) <
          SP.goColorDist p ((l.getD j ⟨0, 0, 0, 0⟩).rgba16)) →
      SP.indexAux p l k best = (k + i, SP.goColorDist p ((l.getD i ⟨0, 0, 0, 0⟩).rgba16)) := by
  induction l with
  | nil =>
      intro k best i hi
      simp at hi
  | cons c rest ih =>
      intro k best i hi hbest hdom
      cases i with
      | zero =>
          simp only [List.getD_cons_zero] at hbest hdom ⊢
          show SP.indexAux p rest (k + 1)
              (if SP.goColorDist p c.rgba16 < best.2 then (k, SP.goColorDist p c.rgba16) else best) =
            (k + 0, SP.goColorDist p c.rgba16)
          rw [if_pos hbest]
          rw [SP.indexAux_keep p rest (k + 1) (k, SP.goColorDist p c.rgba16) fun j hj => ?_]
          · simp
          · have h := hdom (j + 1) (by simp only [List.length_cons]; omega) (by omega)
            simp only [List.getD_cons_succ] at h
            simp only
            omega
      | succ i' =>
          simp only [List.getD_cons_succ] at hbest hdom ⊢
          have hi' : i' < rest.length := by
            simp only [List.length_cons] at hi
            omega
          have hd0 : SP.goColorDist p ((rest.getD i' ⟨0, 0, 0, 0⟩).rgba16) <
              SP.goColorDist p c.rgba16 := by
            have h := hdom 0 (by simp only [List.length_cons]; omega) (by omega)
            simp only [List.getD_cons_zero] at h
            exact h
          have hbest' : SP.goColorDist p ((rest.getD i' ⟨0, 0, 0, 0⟩).rgba16) <
              (if SP.goColorDist p c.rgba16 < best.2
                then (k, SP.goColorDist p c.rgba16) else best).2 := by
            split
            · simpa using hd0
            · exact hbest
          have hdom' : ∀ j, j < rest.length → j ≠ i' →
              SP.goColorDist p ((rest.getD i' ⟨0, 0, 0, 0⟩).rgba16) <
                SP.goColorDist p ((rest.getD j ⟨0, 0, 0, 0⟩).rgba16) := by
            intro j hj hji
            have h := hdom (j + 1) (by simp only [List.length_cons]; omega) (by omega)
            simp only [List.getD_cons_succ] at h
            exact h
          show SP.indexAux p rest (k + 1)
              (if SP.goColorDist p c.rgba16 < best.2 then (k, SP.goColorDist p c.rgba16) else best) =
            (k + (i' + 1), SP.goColorDist p ((rest.getD i' ⟨0, 0, 0, 0⟩).rgba16))
          rw [ih (k + 1) _ i' hi' hbest' hdom']
          refine congrArg₂ Prod.mk (by omega) rfl

/-- Helper: `le` on fractions is reflexive. -/
theorem SP.Q.le_refl (x : SP.Q) : x.le x := by
  unfold SP.Q.le
  omega

/-- Helper: strict fraction order implies the non-strict one. -/
theorem SP.Q.le_of_lt {x y : SP.Q} (h : x.lt y) : x.le y := by
  unfold SP.Q.lt at h
  unfold SP.Q.le
  omega

/-- Helper: an in-bounds `getD` is a member. -/
theorem SP.getD_mem {α : Type} (l : List α) (i : ℕ) (d : α) (h : i < l.length) :
    l.getD i d ∈ l := by
  rw [List.getD_eq_getElem?_getD, List.getElem?_eq_getElem h]
  simp [List.getElem_mem h]

/-- C2, amended: the index written for a pixel is `uint8(Palette.Index)`,
nearest in the 16-bit RGBA metric of the Go standard library — not, in
general, nearest in the active color space's vector space (see the
CIELAB counterexample), and truncated to 8 bits for palettes longer than
256.  In RGB mode, for a palette of at most 256 eight-bit entries and a
pixel with a strictly unique vector-space-nearest entry, the written
index does equal that nearest index: quantized palette entries keep
squared-channel sums 257 apart, which dominates the `sqDiff` truncation
slack. -/
theorem c2_index_amended (palette : List SP.RGBA) (p : SP.GoColor) (i : ℕ)
    (hpal8 : ∀ c ∈ palette, c.r ≤ 255 ∧ c.g ≤ 255 ∧ c.b ≤ 255 ∧ c.a ≤ 255)
    (hp : p.r ≤ 65535 ∧ p.g ≤ 65535 ∧ p.b ≤ 65535 ∧ p.a ≤ 65535)
    (hlen : palette.length ≤ 256)
    (hi : i < palette.length)
    (hmin : ∀ j, j < palette.length → j ≠ i →
      (SP.specVecDist SP.ColorSpace.RGB (palette.getD i ⟨0, 0, 0, 0⟩) p).lt
        (SP.specVecDist SP.ColorSpace.RGB (palette.getD j ⟨0, 0, 0, 0⟩) p)) :
    SP.paletteIndex palette p % 256 = i ∧
    SP.isVecNearest SP.ColorSpace.RGB palette p i := by
  have hgo : ∀ j, j < palette.length → j ≠ i →
      SP.goColorDist p ((palette.getD i ⟨0, 0, 0, 0⟩).rgba16) <
        SP.goColorDist p ((palette.getD j ⟨0, 0, 0, 0⟩).rgba16) := by
    intro j hj hji
    have hm := hmin j hj hji
    rw [SP.specVecDist_rgb_lt_iff] at hm
    rw [← SP.specNat_cast, ← SP.specNat_cast] at hm
    refine SP.specNat_lt_goDist p _ _ hp
      (hpal8 _ (SP.getD_mem palette i _ hi))
      (hpal8 _ (SP.getD_mem palette j _ hj)) ?_
    exact_mod_cast hm
  obtain ⟨-, -, hlt⟩ := SP.goColorDist_bounds p (palette.getD i ⟨0, 0, 0, 0⟩) hp
    (hpal8 _ (SP.getD_mem palette i _ hi))
  have hfound := SP.indexAux_found p palette 0 (0, 4294967295) i hi (by simpa using hlt) hgo
  have hidx : SP.paletteIndex palette p = i := by
    unfold SP.paletteIndex
    rw [hfound]
    simp
  constructor
  · rw [hidx]
    exact Nat.mod_eq_of_lt (by omega)
  · refine ⟨hi, fun j hj => ?_⟩
    by_cases hji : j = i
    · rw [hji]
      exact SP.Q.le_refl _
    · exact SP.Q.le_of_lt (hmin j hj hji)

/-- C2 amended-claim witness: a two-entry palette (black, red) and a pure
red pixel whose unique nearest entry is index 1. -/
theorem c2_index_amended_witness :
    SP.paletteIndex SP.palW SP.pixW % 256 = 1 ∧
    SP.isVecNearest SP.ColorSpace.RGB SP.palW SP.pixW 1 :=
  c2_index_amended SP.palW SP.pixW 1 (by decide) (by decide) (by decide) (by decide)
    (by decide)

set_option maxRecDepth 1000000 in
set_option maxHeartbeats 4000000 in
/-- C2 counterexample: a full `PaletteImage` run in CIELAB mode on the
5-pixel all-dark image (chosen so that every color-space computation
stays in the exactly-rational linear branches, with the randomness stream
fixed to 0).  The probe pixel — black with 8-bit alpha 200 — is written
index 0, the palette entry black/alpha-210, although in the active
CIELAB vector space (alpha scaled by 128) the other palette entry is
strictly nearer: the pixel's written index is NOT the index of the
nearest palette entry in the active color space's vector space, because
`image.Paletted.Set` measures nearness in 16-bit RGBA instead. -/
theorem c2_index_cex :
    (SP.PaletteImage SP.imgLab (some SP.cfgLab) SP.rng0).1.pix.getD 4 0 = 0 ∧
    ¬ SP.isVecNearest SP.ColorSpace.CIELAB
        ((SP.PaletteImage SP.imgLab (some SP.cfgLab) SP.rng0).1.palette.map
          (fun o => o.getD ⟨0, 0, 0, 0⟩))
        (SP.imgLab.getD 4 ⟨0, 0, 0, 0⟩)
        ((SP.PaletteImage SP.imgLab (some SP.cfgLab) SP.rng0).1.pix.getD 4 0) := by
  refine ⟨by decide, by decide⟩
